import Mathlib

/-!
Shallow embedding of the inventree_kicad plugin (KiCad library endpoint for
InvenTree) and proofs about it.

Python strings are modelled as `List Char`.  Django model rows are modelled as
association lists.  Fallible Python code (uncaught exceptions) is modelled with
explicit error values threaded through the importer loop.
-/

namespace KicadLib

/-- Python `str.lower()` restricted to the character-wise mapping. -/
def pyLower (s : List Char) : List Char := s.map Char.toLower

/-- Python substring containment `needle in hay`. -/
def containsSub (needle hay : List Char) : Bool :=
  hay.tails.any (fun t => needle.isPrefixOf t)

/-- Python `s.count(c)` for a single-character needle: the number of
occurrences of the character in the string. -/
def countChar (c : Char) (s : List Char) : Nat := s.countP (fun a => a = c)

/-- Python `s.split(sep)` for a single-character separator.  Splitting the
empty string yields a single empty piece, and every separator occurrence
introduces a piece boundary. -/
def pySplit (sep : Char) : List Char → List (List Char)
  | [] => [[]]
  | c :: cs =>
    let r := pySplit sep cs
    if c = sep then [] :: r else (c :: r.headI) :: r.tail

/-- Separator appended after the piece at index `i` inside the symbol rebuild
loop of `KicadDetailedPartSerializer.get_symbol` (serializers.py lines
172-178): a colon after the first piece, an underscore after the pieces up to
index `cnt - 1`, nothing after the last piece. -/
def sepAfter (i cnt : Nat) : List Char :=
  if i < 1 then [':'] else if i < cnt then ['_'] else []

/-- The accumulation loop of `get_symbol` (serializers.py lines 170-180),
generalised over the running piece index. -/
def rebuildAux (cnt : Nat) : Nat → List (List Char) → List Char
  | _, [] => []
  | i, p :: ps => p ++ sepAfter i cnt ++ rebuildAux cnt (i + 1) ps

/-- Colon normalisation of `get_symbol` (serializers.py lines 164-180):
when the resolved symbol has a colon count other than one and is non-empty,
it is split on colons and rebuilt with the index-dependent separators. -/
def normalizeColons (symbol : List Char) : List Char :=
  let cnt := countChar ':' symbol
  if cnt ≠ 1 ∧ symbol.length ≠ 0 then
    rebuildAux cnt 0 (pySplit ':' symbol)
  else symbol

/-- Specification-side rewrite (from the spec sentence for the symbol field):
keep the first colon, replace every later colon with an underscore, leave all
other characters unchanged.  The Boolean argument records whether a colon has
been seen already. -/
def specKeepFirstColon : List Char → Bool → List Char
  | [], _ => []
  | c :: cs, seen =>
    if c = ':' then (if seen then '_' else ':') :: specKeepFirstColon cs true
    else c :: specKeepFirstColon cs seen

/-- Replace every colon by an underscore (the behaviour of
`specKeepFirstColon` once a colon has been seen). -/
def underscoreColons (s : List Char) : List Char :=
  s.map (fun c => if c = ':' then '_' else c)

/-- A `FootprintParameterMapping` row (models.py): maps a raw footprint
parameter value to a KiCad footprint name, scoped to one KiCad category. -/
structure FootprintMapping where
  parameterValue : List Char
  kicadFootprint : List Char
deriving DecidableEq

/-- The `SelectedCategory` row associated with a part (models.py), carrying
the per-category defaults, the footprint mapping rows filtered to this
category, and the optional per-category footprint parameter template id. -/
structure KicadCategory where
  defaultSymbol : List Char
  defaultFootprint : List Char
  mappings : List FootprintMapping
  footprintTemplateId : Option (List Char)
deriving DecidableEq

/-- Serializer-side plugin settings used by symbol and footprint resolution.
A missing or blank template-id setting is modelled as `none` (in the source a
blank id makes the parameter query fail and fall back to the backup value,
which is observationally the same as no id at all). -/
structure SerSettings where
  symbolParamId : Option (List Char)
  footprintParamId : Option (List Char)
  defaultForMissingSymbol : List Char
deriving DecidableEq

/-- The data of one part visible to the serializer: its resolved KiCad
category (if any) and its parameter rows as a template-id to data map. -/
structure PartCtx where
  kicadCategory : Option KicadCategory
  partParams : List (List Char × List Char)
deriving DecidableEq

/-- KicadDetailedPartSerializer.get_parameter_value (serializers.py lines
101-119): look up the part parameter for the given template id, falling back
to the backup value when the id is absent or no parameter matches. -/
def get_parameter_value (params : List (List Char × List Char))
    (tid : Option (List Char)) (backup : List Char) : List Char :=
  match tid with
  | none => backup
  | some t =>
    match params.find? (fun p => decide (p.1 = t)) with
    | some p => p.2
    | none => backup

/-- The symbol resolution chain of get_symbol (serializers.py lines 149-162),
before colon normalisation: category default, then the symbol parameter of
the part, then the DEFAULT_FOR_MISSING_SYMBOL setting when still empty. -/
def resolvedSymbol (st : SerSettings) (ctx : PartCtx) : List Char :=
  let symbol :=
    match ctx.kicadCategory with
    | some kc => kc.defaultSymbol
    | none => []
  let symbol := get_parameter_value ctx.partParams st.symbolParamId symbol
  if symbol.isEmpty then st.defaultForMissingSymbol else symbol

/-- KicadDetailedPartSerializer.get_symbol (serializers.py lines 142-182):
the resolution chain followed by colon normalisation. -/
def get_symbol (st : SerSettings) (ctx : PartCtx) : List Char :=
  normalizeColons (resolvedSymbol st ctx)

/-- The footprint parameter template id effective for a part
(serializers.py lines 194-207): the per-category template when set,
otherwise the KICAD_FOOTPRINT_PARAMETER plugin setting. -/
def effectiveFootprintTid (st : SerSettings) (ctx : PartCtx) : Option (List Char) :=
  match ctx.kicadCategory with
  | some kc =>
    match kc.footprintTemplateId with
    | some t => some t
    | none => st.footprintParamId
  | none => st.footprintParamId

/-- The raw resolved footprint value of get_footprint (serializers.py lines
192-209), before the category mapping table is consulted: the part parameter
under the effective template id, falling back to the category default
footprint (empty when the part has no KiCad category). -/
def rawResolvedFootprint (st : SerSettings) (ctx : PartCtx) : List Char :=
  let backup :=
    match ctx.kicadCategory with
    | some kc => kc.defaultFootprint
    | none => []
  get_parameter_value ctx.partParams (effectiveFootprintTid st ctx) backup

/-- KicadDetailedPartSerializer.get_footprint (serializers.py lines 184-216):
resolve the raw footprint value, then replace it by the category mapping
entry whose parameter_value matches, when the category has mapping rows and
one matches. -/
def get_footprint (st : SerSettings) (ctx : PartCtx) : List Char :=
  let fp := rawResolvedFootprint st ctx
  match ctx.kicadCategory with
  | some kc =>
    if kc.mappings.isEmpty then fp
    else
      match kc.mappings.find? (fun m => decide (m.parameterValue = fp)) with
      | some m => m.kicadFootprint
      | none => fp
  | none => fp

/-! Importer: KiCadLibraryPlugin.import_meta_data (KiCadLibraryPlugin.py
lines 255-420) and add_attachment (lines 422-471). -/

/-- A child of the fields element of a component: the name attribute
(defaulting to the empty string when absent, as in the source) and the
optional element text. -/
structure XField where
  name : List Char
  text : Option (List Char)
deriving DecidableEq

/-- The libsource element of a component with its lib and part attributes. -/
structure Libsource where
  lib : Option (List Char)
  part : Option (List Char)
deriving DecidableEq

/-- One comp element of the uploaded XML.  For the datasheet and footprint
children the outer Option is element presence and the inner Option is the
element text, which may itself be missing.  For fields, the Option is element
presence and the list holds the child field elements. -/
structure Component where
  ref : Option (List Char)
  datasheet : Option (Option (List Char))
  footprint : Option (Option (List Char))
  libsource : Option Libsource
  fields : Option (List XField)
deriving DecidableEq

/-- Result of Part.objects.get(id=...): a part is found, no part matches
(Part.DoesNotExist), or some other exception is raised (for instance a
ValueError from a non-numeric id string). -/
inductive IdLookup
  | found (pid : Nat)
  | notFound
  | err
deriving DecidableEq

/-- The read-only database environment of an import run: the id and name
lookup tables for parts, the set of existing PartParameterTemplate ids, and
the URLValidator verdict for datasheet links. -/
structure DB where
  byId : List (List Char × IdLookup)
  byName : List (List Char × Nat)
  templates : List (List Char)
  urlValid : List Char → Bool

/-- Look a part up by its id string; ids absent from the table do not exist. -/
def dbById (db : DB) (v : List Char) : IdLookup :=
  match db.byId.find? (fun p => decide (p.1 = v)) with
  | some p => p.2
  | none => IdLookup.notFound

/-- Look a part up by name (the IMPORT_INVENTREE_ID_FALLBACK path). -/
def dbByName (db : DB) (v : List Char) : Option Nat :=
  match db.byName.find? (fun p => decide (p.1 = v)) with
  | some p => some p.2
  | none => none

/-- Plugin settings read by import_meta_data.  The three template-id settings
are strings (blank when unset, which the endpoint rejects); the remaining
settings are the boolean toggles and the id identifier prefix. -/
structure Settings where
  footprintParamId : List Char
  referenceParamId : List Char
  symbolParamId : List Char
  idIdentifier : List Char
  idFallback : Bool
  overrideParas : Bool
  addDatasheet : Bool
deriving DecidableEq

/-- A PartParameter row: the owning part id, the template id and the stored
data (`none` models a null value, as when a footprint element has no text). -/
structure ParamRow where
  part : Nat
  template : List Char
  data : Option (List Char)
deriving DecidableEq

/-- Uncaught exceptions that can escape the import loop: the
ZeroDivisionError of the progress computation when the file holds exactly one
component, and PartParameterTemplate.DoesNotExist when a configured template
id does not exist. -/
inductive RunError
  | zeroDiv
  | templateMissing (tid : List Char)
deriving DecidableEq

/-- The mutable state of an import run: the requesting user's persisted
progress row (`none` while no row exists), the PartParameter table, the
datasheet attachments as part-id/link pairs, and the in-memory
inventree_parts dedup set.  The upserts field is a ghost history variable
recording, in order, the identifier of every component for which the
parameter upsert stage was entered; it influences no behaviour and exists
only so that theorems can speak about how often upserts happened. -/
structure ImpState where
  progressRow : Option Int
  params : List ParamRow
  attachments : List (Nat × List Char)
  seen : List (List Char)
  upserts : List (List Char)
deriving DecidableEq

/-- The fields of a component extracted by the pure section of the import
loop (KiCadLibraryPlugin.py lines 298-352). -/
structure Extracted where
  ref : List Char
  datasheet : Option (List Char)
  footprint : Option (List Char)
  symbol : List Char
  partId : List Char
deriving DecidableEq

/-- The field scan of lines 344-347: the text of the first field whose
lowered name starts with the lowered id identifier, `none` when no field
name matches. -/
def findIdField (ident : List Char) : List XField → Option (Option (List Char))
  | [] => none
  | f :: fs =>
    if (pyLower ident).isPrefixOf (pyLower f.name) then some f.text
    else findIdField ident fs

/-- The pure extraction section of the import loop (lines 298-352): returns
`none` exactly when the component is skipped for a missing ref, footprint
element, libsource attribute, fields block or identifier, and otherwise the
reformatted reference (every digit character removed, line 306), the
datasheet text, the footprint text, the lib:part symbol and the identifier
value. -/
def extractComp (ident : List Char) (c : Component) : Option Extracted :=
  match c.ref with
  | none => none
  | some ref0 =>
  if ref0.isEmpty then none
  else
  let ref := ref0.filter (fun ch => ¬ ch.isDigit)
  let datasheet : Option (List Char) :=
    match c.datasheet with
    | none => none
    | some t => t
  match c.footprint with
  | none => none
  | some footprint =>
  match c.libsource with
  | none => none
  | some ls =>
  match ls.lib, ls.part with
  | some libName, some libPart =>
    if libName.isEmpty ∨ libPart.isEmpty then none
    else
    let symbol := libName ++ ':' :: libPart
    match c.fields with
    | none => none
    | some fs =>
    if fs.isEmpty then none
    else
    match findIdField ident fs with
    | none => none
    | some none => none
    | some (some pidStr) =>
      if pidStr.isEmpty then none
      else some ⟨ref, datasheet, footprint, symbol, pidStr⟩
  | _, _ => none

/-- The part lookup of lines 361-387 as seen by the rest of the loop:
a part id when the row proceeds, `none` when the component is skipped
(unknown id without successful name fallback, or a caught unexpected
exception from the id lookup). -/
def partLookup (st : Settings) (db : DB) (v : List Char) : Option Nat :=
  match dbById db v with
  | IdLookup.found pid => some pid
  | IdLookup.err => none
  | IdLookup.notFound =>
    if st.idFallback then dbByName db v else none

/-- Update the data of the first PartParameter row matching the part and
template ids (the row Django's get_or_create returned). -/
def setParamData : List ParamRow → Nat → List Char → Option (List Char) → List ParamRow
  | [], _, _, _ => []
  | r :: rs, pid, tid, v =>
    if r.part = pid ∧ r.template = tid then { r with data := v } :: rs
    else r :: setParamData rs pid tid v

/-- The PartParameter row for a part and template id, as fetched by
PartParameter.objects.get_or_create(part=part, template=template). -/
def findParam (params : List ParamRow) (pid : Nat) (tid : List Char) :
    Option ParamRow :=
  params.find? (fun r => decide (r.part = pid ∧ r.template = tid))

/-- One iteration of the parameter upsert loop (lines 399-406): the template
lookup raises when the template id does not exist; otherwise the parameter
row is fetched or created, and its data is written only when the row was just
created or the override setting is on. -/
def upsertOne (override : Bool) (templates : List (List Char)) (pid : Nat)
    (tid : List Char) (v : Option (List Char)) (params : List ParamRow) :
    List ParamRow × Option RunError :=
  if tid ∈ templates then
    match findParam params pid tid with
    | some _ =>
      if override then (setParamData params pid tid v, none) else (params, none)
    | none => (params ++ [⟨pid, tid, v⟩], none)
  else (params, some (RunError.templateMissing tid))

/-- The full upsert loop over the reference, footprint and symbol pairs,
aborting at the first uncaught exception while keeping earlier writes. -/
def upsertAll (override : Bool) (templates : List (List Char)) (pid : Nat) :
    List (List Char × Option (List Char)) → List ParamRow →
    List ParamRow × Option RunError
  | [], params => (params, none)
  | (tid, v) :: rest, params =>
    match upsertOne override templates pid tid v params with
    | (ps, some e) => (ps, some e)
    | (ps, none) => upsertAll override templates pid rest ps

/-- KiCadLibraryPlugin.add_attachment (lines 422-471), modern attachment
table: create a part-scoped datasheet attachment unless one already exists
for the part. -/
def add_attachment (pid : Nat) (link : List Char)
    (atts : List (Nat × List Char)) : List (Nat × List Char) :=
  if atts.any (fun a => decide (a.1 = pid)) then atts else atts ++ [(pid, link)]

/-- Bit length of a natural number: zero for zero, otherwise one more than
the floor of the base-two logarithm.  The first argument is fuel (any value
at least the bit count, here the number itself), making the recursion
structural. -/
def bitLenAux : Nat → Nat → Nat
  | 0, _ => 0
  | fuel + 1, n => if n = 0 then 0 else bitLenAux fuel (n / 2) + 1

/-- Bit length of a natural number. -/
def bitLen (n : Nat) : Nat := bitLenAux n n

/-- Round the fraction a / b to the nearest integer, ties to even
(b is nonzero at every call site). -/
def rndInt (a b : Nat) : Nat :=
  let q := a / b
  let r := a % b
  if 2 * r < b then q
  else if b < 2 * r then q + 1
  else if q % 2 = 0 then q else q + 1

/-- Correctly rounded IEEE binary64 division of the naturals a / b: the
nearest double (53 significant bits, round to nearest, ties to even) as a
dyadic pair m, e with value m * 2 ^ e.  The exponent is unbounded: the
model has no overflow or subnormal behaviour, which coincides with binary64
on every magnitude reachable in the progress computation (quotients of
component counts).  Zero divided by anything, and the never-reached division
by zero, give the zero pair. -/
def roundDiv53 (a b : Nat) : Nat × Int :=
  if a = 0 ∨ b = 0 then (0, 0)
  else
    let j : Int := (bitLen a : Int) - (bitLen b : Int)
    let ge : Bool :=
      if 0 ≤ j then decide (b * 2 ^ j.toNat ≤ a) else decide (b ≤ a * 2 ^ (-j).toNat)
    let t : Int := if ge then j else j - 1
    let e : Int := t - 52
    let m : Nat :=
      if 0 ≤ e then rndInt a (b * 2 ^ e.toNat) else rndInt (a * 2 ^ (-e).toNat) b
    (m, e)

/-- Correctly rounded IEEE binary64 multiplication of the double m * 2 ^ e
by the exactly representable constant 100: the integer m * 100 is rounded
back to 53 significant bits, ties to even. -/
def roundMul100 (m : Nat) (e : Int) : Nat × Int :=
  let p := m * 100
  let l := bitLen p
  if l ≤ 53 then (p, e)
  else (rndInt p (2 ^ (l - 53)), e + (l - 53))

/-- Python int() applied to a nonnegative double m * 2 ^ e: truncation
toward zero, which on nonnegative values is the floor. -/
def dyadicTruncToNat (m : Nat) (e : Int) : Nat :=
  if 0 ≤ e then m * 2 ^ e.toNat else m / 2 ^ (-e).toNat

/-- The progress value stored before component idx is processed (line 295):
int((idx / comp_cnt) * 100) with comp_cnt = n1, evaluated as the source
does in IEEE double-precision arithmetic — the division idx / n1 is rounded
to the nearest double, the product with the exact constant 100 is rounded
again, and int() truncates toward zero.  For example the value for idx 29,
n1 100 is 28, because (29 / 100) * 100 rounds below 29 in doubles. -/
def progressValue (idx n1 : Nat) : Nat :=
  let d := roundDiv53 idx n1
  let p := roundMul100 d.1 d.2
  dyadicTruncToNat p.1 p.2

/-- The body of one loop iteration after the progress update (lines 298-416):
extraction, dedup by identifier, part lookup, parameter upsert and optional
datasheet attachment. -/
def procBody (st : Settings) (db : DB) (s : ImpState) (c : Component) :
    ImpState × Option RunError :=
  match extractComp st.idIdentifier c with
  | none => (s, none)
  | some e =>
    if e.partId ∈ s.seen then (s, none)
    else
      let s := { s with seen := e.partId :: s.seen }
      match partLookup st db e.partId with
      | none => (s, none)
      | some pid =>
        let s := { s with upserts := s.upserts ++ [e.partId] }
        match upsertAll st.overrideParas db.templates pid
            [(st.referenceParamId, some e.ref),
             (st.footprintParamId, e.footprint),
             (st.symbolParamId, some e.symbol)] s.params with
        | (ps, some err) => ({ s with params := ps }, some err)
        | (ps, none) =>
          let s := { s with params := ps }
          match e.datasheet with
          | none => (s, none)
          | some d =>
            if d.isEmpty then (s, none)
            else if ¬ st.addDatasheet then (s, none)
            else if ¬ db.urlValid d then (s, none)
            else ({ s with attachments := add_attachment pid d s.attachments }, none)

/-- One iteration of the import loop (lines 292-416): save the user's
progress (raising ZeroDivisionError when comp_cnt is zero, before the row is
updated), then run the body. -/
def processComp (st : Settings) (db : DB) (n1 idx : Nat) (s : ImpState)
    (c : Component) : ImpState × Option RunError :=
  if n1 = 0 then (s, some RunError.zeroDiv)
  else procBody st db { s with progressRow := some (progressValue idx n1 : Nat) } c

/-- The import loop over the component list, indexed as by enumerate,
stopping at the first uncaught exception while keeping the state reached. -/
def runAux (st : Settings) (db : DB) (n1 : Nat) :
    Nat → ImpState → List Component → ImpState × Option RunError
  | _, s, [] => (s, none)
  | idx, s, c :: cs =>
    match processComp st db n1 idx s c with
    | (s1, some e) => (s1, some e)
    | (s1, none) => runAux st db n1 (idx + 1) s1 cs

/-- The uploaded file: its content type and the parse outcome, where `none`
models an XML document on which ElementTree parsing (or the components
lookup) raises, and `some comps` the list of comp elements found. -/
structure UploadFile where
  contentType : List Char
  parsed : Option (List Component)
deriving DecidableEq

/-- The request as seen by import_meta_data: the optional uploaded file. -/
structure UploadReq where
  file : Option UploadFile
deriving DecidableEq

/-- The database state owned by the plugin before a request: the requesting
user's progress row, the PartParameter table and the attachments. -/
structure PersistentState where
  progressRow : Option Int
  params : List ParamRow
  attachments : List (Nat × List Char)
deriving DecidableEq

/-- Initial loop state of a request: the persisted tables together with a
fresh dedup set and an empty ghost log (inventree_parts = set(), line 281). -/
def PersistentState.toInit (ps : PersistentState) : ImpState :=
  ⟨ps.progressRow, ps.params, ps.attachments, [], []⟩

/-- The observable outcome of import_meta_data: the early error returns
(no file, blank template settings, non-XML content type), an uncaught
parse exception, an uncaught exception escaping the loop, or the 200
response. -/
inductive Outcome
  | noFile
  | missingParams
  | notXml
  | parseFailure
  | aborted (e : RunError)
  | ok
deriving DecidableEq

/-- KiCadLibraryPlugin.import_meta_data (lines 255-420).  The early returns
leave the state untouched; after a successful parse the user's progress row
is fetched or created (a new row starts at the model default 0), comp_cnt is
set to the component count minus one, and the loop runs over the components.
The final state keeps the ghost upsert log of the run. -/
def import_meta_data (st : Settings) (db : DB) (req : UploadReq)
    (ps : PersistentState) : Outcome × ImpState :=
  match req.file with
  | none => (Outcome.noFile, ps.toInit)
  | some file =>
    if st.footprintParamId.isEmpty ∨ st.referenceParamId.isEmpty ∨
        st.symbolParamId.isEmpty then
      (Outcome.missingParams, ps.toInit)
    else if ¬ containsSub ('x' :: 'm' :: 'l' :: []) file.contentType then
      (Outcome.notXml, ps.toInit)
    else
      match file.parsed with
      | none => (Outcome.parseFailure, ps.toInit)
      | some comps =>
        let init : ImpState :=
          { ps.toInit with progressRow := some (ps.progressRow.getD 0) }
        match runAux st db (comps.length - 1) 0 init comps with
        | (s, some e) => (Outcome.aborted e, s)
        | (s, none) => (Outcome.ok, s)

/-! Lemmas about the colon normalisation of get_symbol. -/

theorem countChar_nil (c : Char) : countChar c [] = 0 := rfl

theorem countChar_cons (c a : Char) (s : List Char) :
    countChar c (a :: s) = countChar c s + if a = c then 1 else 0 := by
  simp [countChar, List.countP_cons]

theorem countChar_append (c : Char) (s t : List Char) :
    countChar c (s ++ t) = countChar c s + countChar c t := by
  simp [countChar, List.countP_append]

theorem pySplit_ne_nil (sep : Char) (s : List Char) : pySplit sep s ≠ [] := by
  induction s with
  | nil => simp [pySplit]
  | cons c cs ih =>
    by_cases hc : c = sep <;> simp [pySplit, hc]

theorem pySplit_cons_sep (cs : List Char) :
    pySplit ':' (':' :: cs) = [] :: pySplit ':' cs := by
  simp [pySplit]

theorem pySplit_cons_other (c : Char) (cs : List Char) (p : List Char)
    (ps : List (List Char)) (hc : ¬ c = ':') (h : pySplit ':' cs = p :: ps) :
    pySplit ':' (c :: cs) = (c :: p) :: ps := by
  simp [pySplit, hc, h]

theorem specKeepFirstColon_true (s : List Char) :
    specKeepFirstColon s true = underscoreColons s := by
  induction s with
  | nil => rfl
  | cons c cs ih =>
    by_cases hc : c = ':' <;> simp [specKeepFirstColon, underscoreColons, hc] <;>
      simpa [underscoreColons] using ih

theorem countChar_underscoreColons (s : List Char) :
    countChar ':' (underscoreColons s) = 0 := by
  induction s with
  | nil => rfl
  | cons c cs ih =>
    by_cases hc : c = ':' <;>
      simp [underscoreColons, countChar_cons, hc] <;>
      simpa [underscoreColons] using ih

theorem countChar_specKeepFirstColon (s : List Char)
    (h : 1 ≤ countChar ':' s) : countChar ':' (specKeepFirstColon s false) = 1 := by
  induction s with
  | nil => simp [countChar_nil] at h
  | cons c cs ih =>
    rw [countChar_cons] at h
    by_cases hc : c = ':'
    · subst hc
      simp [specKeepFirstColon, countChar_cons, specKeepFirstColon_true,
        countChar_underscoreColons]
    · rw [if_neg hc] at h
      simp only [specKeepFirstColon, if_neg hc]
      rw [countChar_cons, if_neg hc]
      have := ih (by omega)
      omega

theorem rebuildAux_nil (cnt i : Nat) : rebuildAux cnt i [] = [] := rfl

theorem rebuildAux_cons (cnt i : Nat) (p : List Char) (ps : List (List Char)) :
    rebuildAux cnt i (p :: ps) = p ++ sepAfter i cnt ++ rebuildAux cnt (i + 1) ps := rfl

theorem sepAfter_zero (cnt : Nat) : sepAfter 0 cnt = [':'] := rfl

theorem sepAfter_mid (i cnt : Nat) (h1 : 1 ≤ i) (h2 : i < cnt) :
    sepAfter i cnt = ['_'] := by
  unfold sepAfter
  rw [if_neg (by omega), if_pos h2]

theorem sepAfter_last (i cnt : Nat) (h1 : 1 ≤ i) (h2 : ¬ i < cnt) :
    sepAfter i cnt = [] := by
  unfold sepAfter
  rw [if_neg (by omega), if_neg h2]

theorem rebuildAux_underscore (s : List Char) :
    ∀ i cnt, 1 ≤ i → i + countChar ':' s = cnt →
      rebuildAux cnt i (pySplit ':' s) = underscoreColons s := by
  induction s with
  | nil =>
    intro i cnt hi hcnt
    rw [countChar_nil] at hcnt
    show rebuildAux cnt i [[]] = underscoreColons []
    rw [rebuildAux_cons, rebuildAux_nil, sepAfter_last i cnt hi (by omega)]
    rfl
  | cons c cs ih =>
    intro i cnt hi hcnt
    rw [countChar_cons] at hcnt
    by_cases hc : c = ':'
    · rw [if_pos hc] at hcnt
      subst hc
      rw [pySplit_cons_sep, rebuildAux_cons,
        sepAfter_mid i cnt hi (by omega), List.nil_append]
      have hIH := ih (i + 1) cnt (by omega) (by omega)
      simp only [underscoreColons, List.map_cons, if_pos rfl]
      exact congrArg (List.cons '_') (by simpa [underscoreColons] using hIH)
    · rw [if_neg hc] at hcnt
      cases h : pySplit ':' cs with
      | nil => exact absurd h (pySplit_ne_nil ':' cs)
      | cons p ps =>
        rw [pySplit_cons_other c cs p ps hc h, rebuildAux_cons, List.cons_append]
        have hIH := ih i cnt hi (by omega)
        rw [h, rebuildAux_cons] at hIH
        simp only [underscoreColons, List.map_cons, if_neg hc]
        exact congrArg (List.cons c) (by simpa [underscoreColons] using hIH)

theorem rebuildAux_keepFirst (s : List Char) :
    ∀ cnt, 1 ≤ cnt → countChar ':' s = cnt →
      rebuildAux cnt 0 (pySplit ':' s) = specKeepFirstColon s false := by
  induction s with
  | nil =>
    intro cnt hc hcnt
    rw [countChar_nil] at hcnt
    omega
  | cons c cs ih =>
    intro cnt hc hcnt
    rw [countChar_cons] at hcnt
    by_cases hcol : c = ':'
    · rw [if_pos hcol] at hcnt
      subst hcol
      rw [pySplit_cons_sep, rebuildAux_cons, sepAfter_zero, List.nil_append]
      have hU := rebuildAux_underscore cs 1 cnt (le_refl 1) (by omega)
      simp only [specKeepFirstColon, if_pos rfl]
      rw [specKeepFirstColon_true]
      exact congrArg (List.cons ':') hU
    · rw [if_neg hcol] at hcnt
      cases h : pySplit ':' cs with
      | nil => exact absurd h (pySplit_ne_nil ':' cs)
      | cons p ps =>
        rw [pySplit_cons_other c cs p ps hcol h, rebuildAux_cons, List.cons_append]
        have hIH := ih cnt hc (by omega)
        rw [h, rebuildAux_cons] at hIH
        simp only [specKeepFirstColon, if_neg hcol]
        exact congrArg (List.cons c) hIH

theorem pySplit_no_sep (sep : Char) (s : List Char)
    (h : countChar sep s = 0) : pySplit sep s = [s] := by
  induction s with
  | nil => rfl
  | cons c cs ih =>
    rw [countChar_cons] at h
    by_cases hc : c = sep
    · simp [hc] at h
    · have hr := ih (by omega)
      simp [pySplit, hc, hr]

theorem rebuildAux_zero (s : List Char) :
    rebuildAux 0 0 [s] = s ++ [':'] := by
  simp [rebuildAux, sepAfter]

theorem normalizeColons_of_one (s : List Char) (h : countChar ':' s = 1) :
    normalizeColons s = s := by
  unfold normalizeColons
  rw [if_neg]
  intro hand
  exact hand.1 h

theorem normalizeColons_of_many (s : List Char) (h : 2 ≤ countChar ':' s) :
    normalizeColons s = specKeepFirstColon s false := by
  have hne : s ≠ [] := by
    intro he
    rw [he, countChar_nil] at h
    omega
  unfold normalizeColons
  rw [if_pos ⟨by omega, fun hl => hne (List.length_eq_zero.mp hl)⟩]
  exact rebuildAux_keepFirst s (countChar ':' s) (by omega) rfl

theorem normalizeColons_of_zero (s : List Char) (hne : s ≠ [])
    (h : countChar ':' s = 0) : normalizeColons s = s ++ [':'] := by
  unfold normalizeColons
  rw [if_pos ⟨by omega, fun hl => hne (List.length_eq_zero.mp hl)⟩]
  rw [pySplit_no_sep ':' s h, h]
  exact rebuildAux_zero s

/-- Claim C1: when the resolved symbol string contains more than one colon,
get_symbol returns it rewritten so that only the first colon is retained and
every subsequent colon is replaced by an underscore; a symbol containing
exactly one colon is returned unchanged. -/
theorem get_symbol_first_colon_kept (st : SerSettings) (ctx : PartCtx) :
    (2 ≤ countChar ':' (resolvedSymbol st ctx) →
      get_symbol st ctx = specKeepFirstColon (resolvedSymbol st ctx) false) ∧
    (countChar ':' (resolvedSymbol st ctx) = 1 →
      get_symbol st ctx = resolvedSymbol st ctx) := by
  constructor
  · intro h2
    exact normalizeColons_of_many _ h2
  · intro h1
    exact normalizeColons_of_one _ h1

/-- Settings fixture for the serializer theorem witnesses: no template ids,
with the backup symbol setting carrying the value under test. -/
def serStGen (sym : List Char) : SerSettings :=
  { symbolParamId := none, footprintParamId := none,
    defaultForMissingSymbol := sym }

/-- Part fixture without a KiCad category and without parameters. -/
def bareCtx : PartCtx := { kicadCategory := none, partParams := [] }

/-- Witness for C1: a two-colon symbol is rewritten with the later colon
turned into an underscore, and a one-colon symbol passes through unchanged. -/
theorem get_symbol_first_colon_kept_witness :
    get_symbol (serStGen ('a' :: ':' :: 'b' :: ':' :: 'c' :: [])) bareCtx
      = 'a' :: ':' :: 'b' :: '_' :: 'c' :: [] ∧
    get_symbol (serStGen ('a' :: ':' :: 'b' :: [])) bareCtx
      = resolvedSymbol (serStGen ('a' :: ':' :: 'b' :: [])) bareCtx := by
  constructor
  · exact ((get_symbol_first_colon_kept
      (serStGen ('a' :: ':' :: 'b' :: ':' :: 'c' :: [])) bareCtx).1
        (by decide)).trans (by decide)
  · exact (get_symbol_first_colon_kept
      (serStGen ('a' :: ':' :: 'b' :: [])) bareCtx).2 (by decide)

/-- Claim C10: every non-empty string returned by get_symbol has exactly one
colon; a resolved symbol without colons gets a colon appended at the end, and
a resolved symbol with exactly one colon passes through unchanged. -/
theorem get_symbol_exactly_one_colon (st : SerSettings) (ctx : PartCtx) :
    (get_symbol st ctx ≠ [] → countChar ':' (get_symbol st ctx) = 1) ∧
    (resolvedSymbol st ctx ≠ [] → countChar ':' (resolvedSymbol st ctx) = 0 →
      get_symbol st ctx = resolvedSymbol st ctx ++ [':']) ∧
    (countChar ':' (resolvedSymbol st ctx) = 1 →
      get_symbol st ctx = resolvedSymbol st ctx) := by
  refine ⟨?_, ?_, normalizeColons_of_one _⟩
  · intro hne
    have hr : resolvedSymbol st ctx ≠ [] := by
      intro he
      apply hne
      show normalizeColons (resolvedSymbol st ctx) = []
      rw [he]
      rfl
    rcases Nat.lt_or_ge (countChar ':' (resolvedSymbol st ctx)) 2 with hlt | hge
    · interval_cases h : countChar ':' (resolvedSymbol st ctx)
      · show countChar ':' (normalizeColons (resolvedSymbol st ctx)) = 1
        rw [normalizeColons_of_zero _ hr h, countChar_append, h]
        rfl
      · show countChar ':' (normalizeColons (resolvedSymbol st ctx)) = 1
        rw [normalizeColons_of_one _ h]
        exact h
    · show countChar ':' (normalizeColons (resolvedSymbol st ctx)) = 1
      rw [normalizeColons_of_many _ hge]
      exact countChar_specKeepFirstColon _ (by omega)
  · intro hr h0
    exact normalizeColons_of_zero _ hr h0

/-- Witness for C10: a colon-free resolved symbol comes back with a single
trailing colon. -/
theorem get_symbol_exactly_one_colon_witness :
    get_symbol (serStGen ('a' :: 'b' :: [])) bareCtx
      = resolvedSymbol (serStGen ('a' :: 'b' :: [])) bareCtx ++ [':'] ∧
    countChar ':' (get_symbol (serStGen ('a' :: 'b' :: [])) bareCtx) = 1 := by
  constructor
  · exact (get_symbol_exactly_one_colon (serStGen ('a' :: 'b' :: [])) bareCtx).2.1
      (by decide) (by decide)
  · exact (get_symbol_exactly_one_colon (serStGen ('a' :: 'b' :: [])) bareCtx).1
      (by decide)

theorem find?_eq_of_unique {α : Type} (p : α → Bool) :
    ∀ (l : List α) (m : α), m ∈ l → p m = true →
      (∀ a, a ∈ l → p a = true → a = m) → l.find? p = some m := by
  intro l
  induction l with
  | nil =>
    intro m hm _ _
    simp at hm
  | cons a l ih =>
    intro m hm hpm huniq
    by_cases hpa : p a = true
    · rw [List.find?_cons_of_pos _ hpa]
      rw [huniq a (List.mem_cons_self a l) hpa]
    · rw [List.find?_cons_of_neg _ (by simpa using hpa)]
      rcases List.mem_cons.mp hm with h | h
      · exact absurd (h ▸ hpm) hpa
      · exact ih m h hpm (fun b hb hpb => huniq b (List.mem_cons_of_mem a hb) hpb)

/-- Claim C7: when the part's KiCad category holds a footprint mapping entry
whose parameter_value equals the raw resolved footprint value, get_footprint
returns that entry's kicad_footprint instead of the raw value.  The Nodup
hypothesis is the unique_together (kicad_category, parameter_value)
constraint of the FootprintParameterMapping model. -/
theorem get_footprint_prefers_mapping (st : SerSettings) (ctx : PartCtx)
    (kc : KicadCategory) (m : FootprintMapping)
    (hcat : ctx.kicadCategory = some kc)
    (hnod : (kc.mappings.map FootprintMapping.parameterValue).Nodup)
    (hm : m ∈ kc.mappings)
    (hval : m.parameterValue = rawResolvedFootprint st ctx) :
    get_footprint st ctx = m.kicadFootprint := by
  have hfind : kc.mappings.find?
      (fun x => decide (x.parameterValue = rawResolvedFootprint st ctx)) = some m := by
    apply find?_eq_of_unique _ _ m hm (by simp [hval])
    intro a ha hpa
    exact List.inj_on_of_nodup_map hnod ha hm
      (by rw [hval]; exact of_decide_eq_true hpa)
  have hne : ¬ (kc.mappings.isEmpty = true) := by
    rw [List.isEmpty_iff]
    exact List.ne_nil_of_mem hm
  simp only [get_footprint, hcat]
  rw [if_neg hne, hfind]

/-- Category fixture for the C7 witness: one mapping row rewriting the raw
default footprint value. -/
def mapKc : KicadCategory :=
  { defaultSymbol := [],
    defaultFootprint := 'R' :: 'A' :: 'W' :: [],
    mappings := [⟨'R' :: 'A' :: 'W' :: [], 'K' :: 'F' :: 'P' :: []⟩],
    footprintTemplateId := none }

/-- Part fixture for the C7 witness. -/
def mapCtx : PartCtx := { kicadCategory := some mapKc, partParams := [] }

/-- Witness for C7: the raw default footprint RAW is remapped to KFP by the
category mapping table. -/
theorem get_footprint_prefers_mapping_witness :
    get_footprint (serStGen []) mapCtx = 'K' :: 'F' :: 'P' :: [] :=
  get_footprint_prefers_mapping (serStGen []) mapCtx mapKc
    ⟨'R' :: 'A' :: 'W' :: [], 'K' :: 'F' :: 'P' :: []⟩
    rfl (by decide) (by decide) (by decide)

/-! Importer theorems. -/

/-- The loop body after the progress save never touches the progress row. -/
theorem procBody_progressRow (st : Settings) (db : DB) (s : ImpState)
    (c : Component) : (procBody st db s c).1.progressRow = s.progressRow := by
  simp only [procBody]
  repeat' split
  all_goals rfl

/-- When comp_cnt is nonzero, one loop iteration stores exactly the
progress value for its index, whatever else happens to the component. -/
theorem processComp_progressRow (st : Settings) (db : DB) (n1 idx : Nat)
    (s : ImpState) (c : Component) (hn : n1 ≠ 0) :
    (processComp st db n1 idx s c).1.progressRow
      = some (progressValue idx n1 : Int) := by
  simp only [processComp, if_neg hn]
  rw [procBody_progressRow]

theorem runAux_progress_aux (st : Settings) (db : DB) (n1 : Nat) :
    ∀ (cs : List Component) (i idx : Nat) (s : ImpState),
      i < cs.length → n1 ≠ 0 →
      (runAux st db n1 idx s (cs.take (i + 1))).2 = none →
      (runAux st db n1 idx s (cs.take (i + 1))).1.progressRow
        = some (progressValue (idx + i) n1 : Int) := by
  intro cs
  induction cs with
  | nil =>
    intro i idx s hi
    simp at hi
  | cons c cs ih =>
    intro i idx s hi hn hok
    cases i with
    | zero =>
      rw [List.take_succ_cons, List.take_zero] at hok ⊢
      cases hp : processComp st db n1 idx s c with
      | mk s1 err =>
        cases err with
        | some e =>
          rw [show runAux st db n1 idx s [c] = (s1, some e) by
            simp [runAux, hp]] at hok
          exact absurd hok (by simp)
        | none =>
          rw [show runAux st db n1 idx s [c] = (s1, none) by
            simp [runAux, hp]]
          have := processComp_progressRow st db n1 idx s c hn
          rw [hp] at this
          simpa using this
    | succ j =>
      rw [List.take_succ_cons] at hok ⊢
      cases hp : processComp st db n1 idx s c with
      | mk s1 err =>
        cases err with
        | some e =>
          rw [show runAux st db n1 idx s (c :: cs.take (j + 1)) = (s1, some e) by
            simp [runAux, hp]] at hok
          exact absurd hok (by simp)
        | none =>
          rw [show runAux st db n1 idx s (c :: cs.take (j + 1))
              = runAux st db n1 (idx + 1) s1 (cs.take (j + 1)) by
            simp [runAux, hp]] at hok ⊢
          have := ih j (idx + 1) s1 (by simpa using hi) hn hok
          rw [show idx + 1 + j = idx + (j + 1) by omega] at this
          exact this

/-- Claim C2 (amended): during an import of N components, before processing
the component at zero-based index i the stored progress is
int((i / (N - 1)) * 100) as the source evaluates it in IEEE double-precision
arithmetic (progressValue) — the denominator is the component count minus
one, not the component count. -/
theorem import_progress_denominator (st : Settings) (db : DB) (s0 : ImpState)
    (comps : List Component) (i : Nat)
    (hi : i < comps.length) (hn : comps.length - 1 ≠ 0)
    (hok : (runAux st db (comps.length - 1) 0 s0 (comps.take (i + 1))).2 = none) :
    (runAux st db (comps.length - 1) 0 s0 (comps.take (i + 1))).1.progressRow
      = some (progressValue i (comps.length - 1) : Int) := by
  have h := runAux_progress_aux st db (comps.length - 1) comps i 0 s0 hi hn hok
  rw [Nat.zero_add] at h
  exact h

/-! Concrete fixtures shared by importer witnesses and counterexamples. -/

/-- Importer settings fixture: template ids 8 (reference), 7 (footprint),
9 (symbol), default identifier, all toggles off. -/
def stT : Settings :=
  { footprintParamId := "7".toList, referenceParamId := "8".toList,
    symbolParamId := "9".toList, idIdentifier := "InvenTree".toList,
    idFallback := false, overrideParas := false, addDatasheet := false }

/-- Database fixture: parts 5 and 6 exist, all three templates exist,
plus an id whose lookup raises an unexpected exception. -/
def dbT : DB :=
  { byId := [("5".toList, IdLookup.found 5), ("6".toList, IdLookup.found 6),
             ("boom".toList, IdLookup.err)],
    byName := [],
    templates := ["7".toList, "8".toList, "9".toList],
    urlValid := fun _ => false }

/-- A component carrying every required field, referencing part 5.  Its ref
attribute U1A2 has an interior digit and a trailing digit. -/
def compFull : Component :=
  { ref := some ("U1A2".toList),
    datasheet := none,
    footprint := some (some ("FP".toList)),
    libsource := some { lib := some ("Lib".toList), part := some ("Sym".toList) },
    fields := some [{ name := "InvenTree".toList, text := some ("5".toList) }] }

/-- A second fully valid component, referencing part 6. -/
def compFull6 : Component :=
  { ref := some ("R2".toList),
    datasheet := none,
    footprint := some (some ("FP6".toList)),
    libsource := some { lib := some ("Lib".toList), part := some ("Sym6".toList) },
    fields := some [{ name := "InvenTree".toList, text := some ("6".toList) }] }

/-- A component with no ref attribute: skipped right after the progress
update. -/
def compSkip : Component :=
  { ref := none, datasheet := none, footprint := none, libsource := none,
    fields := none }

/-- A component whose part lookup raises an unexpected exception. -/
def compBoom : Component :=
  { ref := some ("C3".toList),
    datasheet := none,
    footprint := some (some ("FPB".toList)),
    libsource := some { lib := some ("Lib".toList), part := some ("SymB".toList) },
    fields := some [{ name := "InvenTree".toList, text := some ("boom".toList) }] }

/-- Empty persistent state fixture. -/
def psEmpty : PersistentState :=
  { progressRow := none, params := [], attachments := [] }

/-- An upload request fixture with XML content type and the given parsed
component list. -/
def xmlReq (comps : List Component) : UploadReq :=
  { file := some { contentType := "text/xml".toList, parsed := some comps } }

/-- Counterexample to claim C2 as stated: in a two-component import, the
progress stored before processing the component at index 1 is 100, not the
claimed int((1 / 2) * 100), which evaluates to 50 (exactly, in double
arithmetic as well as over the rationals). -/
theorem import_progress_claim_false :
    (runAux stT dbT (List.length [compSkip, compSkip] - 1) 0 psEmpty.toInit
        [compSkip, compSkip]).1.progressRow = some 100 ∧
    progressValue 1 2 = 50 ∧
    ¬ ((100 : Int) = 50) := by
  exact ⟨by decide, by decide, by decide⟩

/-- Witness for the amended C2 theorem at a concrete two-component run. -/
theorem import_progress_denominator_witness :
    (runAux stT dbT (List.length [compSkip, compSkip] - 1) 0 psEmpty.toInit
        (List.take (1 + 1) [compSkip, compSkip])).1.progressRow
      = some (progressValue 1 (List.length [compSkip, compSkip] - 1) : Int) :=
  import_progress_denominator stT dbT psEmpty.toInit [compSkip, compSkip] 1
    (by decide) (by decide) (by decide)

/-- Claim C3: a well-formed XML upload with exactly one component makes the
progress computation divide by zero: the import aborts on the first
component with a ZeroDivisionError, before any parameter is upserted —
the resulting state differs from the initial one only in the progress row
created when the import began. -/
theorem single_component_divides_by_zero (st : Settings) (db : DB)
    (ps : PersistentState) (file : UploadFile) (c : Component)
    (hparse : file.parsed = some [c])
    (hxml : containsSub ('x' :: 'm' :: 'l' :: []) file.contentType = true)
    (hset : ¬ (st.footprintParamId.isEmpty ∨ st.referenceParamId.isEmpty ∨
      st.symbolParamId.isEmpty)) :
    import_meta_data st db ⟨some file⟩ ps =
      (Outcome.aborted RunError.zeroDiv,
       { ps.toInit with progressRow := some (ps.progressRow.getD 0) }) := by
  simp only [import_meta_data, hparse, hxml]
  rw [if_neg hset]
  simp [runAux, processComp]

/-- Witness for C3 at a concrete single-component upload. -/
theorem single_component_divides_by_zero_witness :
    import_meta_data stT dbT (xmlReq [compFull]) psEmpty =
      (Outcome.aborted RunError.zeroDiv,
       { psEmpty.toInit with progressRow := some (psEmpty.progressRow.getD 0) }) :=
  single_component_divides_by_zero stT dbT psEmpty
    { contentType := "text/xml".toList, parsed := some [compFull] } compFull
    rfl (by decide) (by decide)

/-- Claim C4: an upload whose file is not XML — whether rejected by the
content-type gate or failing to parse — yields an error outcome and leaves
every record untouched: no parameter, attachment or progress row is created
or modified. -/
theorem malformed_file_no_writes (st : Settings) (db : DB)
    (file : UploadFile) (ps : PersistentState)
    (h : containsSub ('x' :: 'm' :: 'l' :: []) file.contentType = false ∨
      file.parsed = none) :
    (import_meta_data st db ⟨some file⟩ ps).2 = ps.toInit ∧
    (import_meta_data st db ⟨some file⟩ ps).1 ≠ Outcome.ok := by
  by_cases hset : (st.footprintParamId.isEmpty ∨ st.referenceParamId.isEmpty ∨
      st.symbolParamId.isEmpty)
  · simp only [import_meta_data]
    rw [if_pos hset]
    exact ⟨rfl, by simp⟩
  · rcases h with h | h
    · simp only [import_meta_data, h]
      rw [if_neg hset]
      simp
    · by_cases hct : containsSub ('x' :: 'm' :: 'l' :: []) file.contentType = true
      · simp only [import_meta_data, hct, h]
        rw [if_neg hset]
        simp
      · simp only [import_meta_data, eq_false_of_ne_true hct]
        rw [if_neg hset]
        simp

/-- Witness for C4 at a concrete upload with a text/plain content type. -/
theorem malformed_file_no_writes_witness :
    (import_meta_data stT dbT
        ⟨some { contentType := "text/plain".toList, parsed := some [compFull] }⟩
        psEmpty).2 = psEmpty.toInit ∧
    (import_meta_data stT dbT
        ⟨some { contentType := "text/plain".toList, parsed := some [compFull] }⟩
        psEmpty).1 ≠ Outcome.ok :=
  malformed_file_no_writes stT dbT
    { contentType := "text/plain".toList, parsed := some [compFull] } psEmpty
    (Or.inl (by decide))

/-- Database fixture missing the reference parameter template, so the upsert
loop raises PartParameterTemplate.DoesNotExist. -/
def dbNoRefT : DB :=
  { byId := [("5".toList, IdLookup.found 5), ("6".toList, IdLookup.found 6)],
    byName := [],
    templates := ["7".toList, "9".toList],
    urlValid := fun _ => false }

/-- Counterexample to claim C5 as stated: an exception raised while
processing the first component (a missing parameter template during its
upsert) is not caught at the row level; the import aborts, the second —
perfectly valid — component is never processed, and no parameters at all
are written. -/
theorem row_exception_aborts_batch :
    (import_meta_data stT dbNoRefT (xmlReq [compFull, compFull6]) psEmpty).1
      = Outcome.aborted (RunError.templateMissing ("8".toList)) ∧
    (import_meta_data stT dbNoRefT (xmlReq [compFull, compFull6]) psEmpty).2.params
      = [] ∧
    (import_meta_data stT dbNoRefT (xmlReq [compFull, compFull6]) psEmpty).2.upserts
      = ["5".toList] := by
  refine ⟨?_, ?_, ?_⟩ <;> decide

/-- Claim C5 (amended): two stages of per-component processing catch
unexpected exceptions at the row level and skip-and-continue — the part
lookup by identifier (an exception there skips the component with no
parameter or attachment write) and the datasheet stage (a failing URL
validation skips only the attachment) — but the parameter upsert stage is
unprotected, so an exception there (such as a missing parameter template)
aborts the remainder of the batch. -/
theorem caught_row_exceptions_skip (st : Settings) (db : DB) (n1 idx : Nat)
    (s : ImpState) (c : Component) (e : Extracted)
    (hn : n1 ≠ 0)
    (hex : extractComp st.idIdentifier c = some e)
    (hseen : ¬ e.partId ∈ s.seen) :
    (dbById db e.partId = IdLookup.err →
      processComp st db n1 idx s c =
        ({ s with progressRow := some (progressValue idx n1 : Int),
                  seen := e.partId :: s.seen }, none)) ∧
    (∀ (pid : Nat) (ps : List ParamRow) (d : List Char),
      partLookup st db e.partId = some pid →
      upsertAll st.overrideParas db.templates pid
        [(st.referenceParamId, some e.ref), (st.footprintParamId, e.footprint),
         (st.symbolParamId, some e.symbol)] s.params = (ps, none) →
      e.datasheet = some d →
      d.isEmpty = false →
      st.addDatasheet = true →
      db.urlValid d = false →
      processComp st db n1 idx s c =
        ({ s with progressRow := some (progressValue idx n1 : Int),
                  seen := e.partId :: s.seen
                  upserts := s.upserts ++ [e.partId]
                  params := ps }, none)) := by
  constructor
  · intro herr
    simp only [processComp, if_neg hn, procBody, hex]
    rw [if_neg (by simpa using hseen)]
    simp [partLookup, herr]
  · intro pid ps d hlk hup hds hdne hadd hbad
    simp only [processComp, if_neg hn, procBody, hex]
    rw [if_neg (by simpa using hseen)]
    simp only [hlk, hup, hds, hdne, hadd, hbad]
    simp

/-- Importer settings fixture with the datasheet-attachment toggle on. -/
def stDS : Settings := { stT with addDatasheet := true }

/-- A fully valid component for part 6 whose datasheet link fails the URL
validation. -/
def compBadUrl : Component :=
  { ref := some ("D1".toList),
    datasheet := some (some ("notaurl".toList)),
    footprint := some (some ("FPD".toList)),
    libsource := some { lib := some ("Lib".toList), part := some ("SymD".toList) },
    fields := some [{ name := "InvenTree".toList, text := some ("6".toList) }] }

/-- Witness for the amended C5 theorem: a component whose id lookup raises
is skipped while the loop continues without error, and a component whose
datasheet URL fails validation keeps its parameter writes, gets no
attachment, and the loop likewise continues without error. -/
theorem caught_row_exceptions_skip_witness :
    (processComp stT dbT 1 0 psEmpty.toInit compBoom =
      ({ psEmpty.toInit with progressRow := some (progressValue 0 1 : Int),
                             seen := "boom".toList :: psEmpty.toInit.seen }, none)) ∧
    (processComp stDS dbT 1 0 psEmpty.toInit compBadUrl =
      ({ psEmpty.toInit with progressRow := some (progressValue 0 1 : Int),
                             seen := "6".toList :: psEmpty.toInit.seen
                             upserts := psEmpty.toInit.upserts ++ ["6".toList]
                             params :=
                               [⟨6, "8".toList, some ("D".toList)⟩,
                                ⟨6, "7".toList, some ("FPD".toList)⟩,
                                ⟨6, "9".toList, some ("Lib:SymD".toList)⟩] }, none)) := by
  constructor
  · exact (caught_row_exceptions_skip stT dbT 1 0 psEmpty.toInit compBoom
      ⟨"C".toList, none, some ("FPB".toList), "Lib:SymB".toList, "boom".toList⟩
      (by decide) (by decide) (by decide)).1 (by decide)
  · exact (caught_row_exceptions_skip stDS dbT 1 0 psEmpty.toInit compBadUrl
      ⟨"D".toList, some ("notaurl".toList), some ("FPD".toList),
       "Lib:SymD".toList, "6".toList⟩
      (by decide) (by decide) (by decide)).2 6
      [⟨6, "8".toList, some ("D".toList)⟩,
       ⟨6, "7".toList, some ("FPD".toList)⟩,
       ⟨6, "9".toList, some ("Lib:SymD".toList)⟩]
      ("notaurl".toList)
      (by decide) (by decide) (by decide) (by decide) (by decide) (by decide)

/-- The dedup invariant of the import loop: the ghost upsert log is
duplicate-free and every logged identifier is in the seen set. -/
def seenUpInv (s : ImpState) : Prop :=
  s.upserts.Nodup ∧ ∀ v ∈ s.upserts, v ∈ s.seen

theorem procBody_inv (st : Settings) (db : DB) (s : ImpState) (c : Component)
    (h : seenUpInv s) : seenUpInv (procBody st db s c).1 := by
  have hseen2 : ∀ v : List Char, seenUpInv { s with seen := v :: s.seen } :=
    fun v => ⟨h.1, fun w hw => List.mem_cons_of_mem _ (h.2 w hw)⟩
  have hmono : ∀ v : List Char, ¬ v ∈ s.seen →
      seenUpInv { s with
        seen := v :: s.seen,
        upserts := s.upserts ++ [v] } := by
    intro v hv
    constructor
    · refine List.Nodup.append h.1 (List.nodup_singleton _) ?_
      intro a ha hb
      rw [List.mem_singleton] at hb
      subst hb
      exact hv (h.2 a ha)
    · intro w hw
      rcases List.mem_append.mp hw with hw | hw
      · exact List.mem_cons_of_mem _ (h.2 w hw)
      · rw [List.mem_singleton] at hw
        subst hw
        exact List.mem_cons_self _ _
  simp only [procBody]
  repeat' split
  all_goals
    first
      | exact h
      | exact hseen2 _
      | exact hmono _ (by assumption)

theorem processComp_inv (st : Settings) (db : DB) (n1 idx : Nat)
    (s : ImpState) (c : Component) (h : seenUpInv s) :
    seenUpInv (processComp st db n1 idx s c).1 := by
  simp only [processComp]
  by_cases hn : n1 = 0
  · rw [if_pos hn]
    exact h
  · rw [if_neg hn]
    exact procBody_inv st db _ c ⟨h.1, h.2⟩

theorem runAux_inv (st : Settings) (db : DB) (n1 : Nat) :
    ∀ (cs : List Component) (idx : Nat) (s : ImpState), seenUpInv s →
      seenUpInv (runAux st db n1 idx s cs).1 := by
  intro cs
  induction cs with
  | nil =>
    intro idx s h
    exact h
  | cons c cs ih =>
    intro idx s h
    simp only [runAux]
    cases hp : processComp st db n1 idx s c with
    | mk s1 err =>
      have h1 : seenUpInv s1 := by
        have := processComp_inv st db n1 idx s c h
        rw [hp] at this
        exact this
      cases err with
      | some e => exact h1
      | none => exact ih (idx + 1) s1 h1

/-- Claim C6: within a single import run every external identifier enters
the parameter-upsert stage at most once — the ghost log of identifiers for
which parameter updates were performed is duplicate-free, because a
component whose identifier is already in the seen set is skipped before any
write. -/
theorem import_dedupes_by_identifier (st : Settings) (db : DB)
    (req : UploadReq) (ps : PersistentState) :
    (import_meta_data st db req ps).2.upserts.Nodup := by
  have hinit : ∀ pr, seenUpInv { ps.toInit with progressRow := pr } := by
    intro pr
    exact ⟨List.nodup_nil, by intro v hv; exact absurd hv (List.not_mem_nil v)⟩
  simp only [import_meta_data]
  cases req.file with
  | none => exact List.nodup_nil
  | some file =>
    dsimp only
    by_cases hset : (st.footprintParamId.isEmpty ∨ st.referenceParamId.isEmpty ∨
        st.symbolParamId.isEmpty)
    · rw [if_pos hset]
      exact List.nodup_nil
    · rw [if_neg hset]
      by_cases hct : containsSub ('x' :: 'm' :: 'l' :: []) file.contentType = true
      · simp only [hct]
        rw [if_neg (by simp)]
        cases hparse : file.parsed with
        | none => exact List.nodup_nil
        | some comps =>
          dsimp only
          have h := runAux_inv st db (comps.length - 1) comps 0
            { ps.toInit with progressRow := some (ps.progressRow.getD 0) }
            (hinit _)
          cases hr : runAux st db (comps.length - 1) 0
              { ps.toInit with progressRow := some (ps.progressRow.getD 0) } comps with
          | mk s e =>
            rw [hr] at h
            cases e with
            | some er => exact h.1
            | none => exact h.1
      · simp only [eq_false_of_ne_true hct]
        rw [if_pos (by simp)]
        exact List.nodup_nil

/-- Preservation relation between parameter tables: every row visible under
some part and template key stays visible under that key. -/
def paramsPreserved (a b : List ParamRow) : Prop :=
  ∀ (p : Nat) (t : List Char) (r : ParamRow),
    findParam a p t = some r → findParam b p t = some r

theorem paramsPreserved_refl (a : List ParamRow) : paramsPreserved a a :=
  fun _ _ _ h => h

theorem paramsPreserved_trans {a b c : List ParamRow}
    (h1 : paramsPreserved a b) (h2 : paramsPreserved b c) : paramsPreserved a c :=
  fun p t r h => h2 p t r (h1 p t r h)

theorem find?_append_of_some {α : Type} (p : α → Bool) (l1 l2 : List α) (r : α)
    (h : l1.find? p = some r) : (l1 ++ l2).find? p = some r := by
  induction l1 with
  | nil => simp [List.find?] at h
  | cons a l ih =>
    by_cases hp : p a = true
    · rw [List.find?_cons_of_pos _ hp] at h
      rw [List.cons_append, List.find?_cons_of_pos _ hp]
      exact h
    · rw [List.find?_cons_of_neg _ (by simpa using hp)] at h
      rw [List.cons_append, List.find?_cons_of_neg _ (by simpa using hp)]
      exact ih h

theorem find?_append_of_none {α : Type} (p : α → Bool) (l1 l2 : List α)
    (h : l1.find? p = none) : (l1 ++ l2).find? p = l2.find? p := by
  induction l1 with
  | nil => rfl
  | cons a l ih =>
    by_cases hp : p a = true
    · rw [List.find?_cons_of_pos _ hp] at h
      exact absurd h (by simp)
    · rw [List.find?_cons_of_neg _ (by simpa using hp)] at h
      rw [List.cons_append, List.find?_cons_of_neg _ (by simpa using hp)]
      exact ih h

/-- With the override setting off, one upsert step never disturbs a row
reachable under its key: an existing row is left alone and a created row is
appended behind everything already visible. -/
theorem upsertOne_preserves (override : Bool) (hov : override = false)
    (tl : List (List Char)) (pid : Nat) (tid : List Char)
    (v : Option (List Char)) (params : List ParamRow) :
    paramsPreserved params (upsertOne override tl pid tid v params).1 := by
  subst hov
  simp only [upsertOne]
  by_cases ht : tid ∈ tl
  · rw [if_pos ht]
    cases hf : findParam params pid tid with
    | some r0 => exact paramsPreserved_refl _
    | none =>
      intro p t r h
      exact find?_append_of_some _ _ _ _ h
  · rw [if_neg ht]
    exact paramsPreserved_refl _

theorem upsertAll_preserves (override : Bool) (hov : override = false)
    (tl : List (List Char)) (pid : Nat) :
    ∀ (l : List (List Char × Option (List Char))) (params : List ParamRow),
      paramsPreserved params (upsertAll override tl pid l params).1 := by
  intro l
  induction l with
  | nil => exact fun params => paramsPreserved_refl _
  | cons tv rest ih =>
    intro params
    simp only [upsertAll]
    cases hu : upsertOne override tl pid tv.1 tv.2 params with
    | mk ps err =>
      have h1 : paramsPreserved params ps := by
        have := upsertOne_preserves override hov tl pid tv.1 tv.2 params
        rw [hu] at this
        exact this
      cases err with
      | some e => exact h1
      | none => exact paramsPreserved_trans h1 (ih ps)

theorem procBody_params_preserved (st : Settings) (db : DB) (s : ImpState)
    (c : Component) (hov : st.overrideParas = false) :
    paramsPreserved s.params (procBody st db s c).1.params := by
  simp only [procBody]
  cases hex : extractComp st.idIdentifier c with
  | none => exact paramsPreserved_refl _
  | some e =>
    dsimp only
    by_cases hseen : e.partId ∈ s.seen
    · rw [if_pos hseen]
      exact paramsPreserved_refl _
    · rw [if_neg hseen]
      cases hlk : partLookup st db e.partId with
      | none => exact paramsPreserved_refl _
      | some pid =>
        dsimp only
        cases hup : upsertAll st.overrideParas db.templates pid
            [(st.referenceParamId, some e.ref), (st.footprintParamId, e.footprint),
             (st.symbolParamId, some e.symbol)] s.params with
        | mk ps err =>
          have hpres : paramsPreserved s.params ps := by
            have := upsertAll_preserves st.overrideParas hov db.templates pid
              [(st.referenceParamId, some e.ref), (st.footprintParamId, e.footprint),
               (st.symbolParamId, some e.symbol)] s.params
            rw [hup] at this
            exact this
          cases err with
          | some er => exact hpres
          | none =>
            dsimp only
            cases e.datasheet with
            | none => exact hpres
            | some d =>
              dsimp only
              by_cases hde : d.isEmpty
              · rw [if_pos hde]
                exact hpres
              · rw [if_neg hde]
                by_cases had : st.addDatasheet
                · by_cases hurl : db.urlValid d
                  · simp only [had, hurl]
                    rw [if_neg (by simp), if_neg (by simp)]
                    exact hpres
                  · simp only [had, eq_false_of_ne_true hurl]
                    rw [if_neg (by simp), if_pos (by simp)]
                    exact hpres
                · simp only [eq_false_of_ne_true had]
                  rw [if_pos (by simp)]
                  exact hpres

theorem processComp_params_preserved (st : Settings) (db : DB) (n1 idx : Nat)
    (s : ImpState) (c : Component) (hov : st.overrideParas = false) :
    paramsPreserved s.params (processComp st db n1 idx s c).1.params := by
  simp only [processComp]
  by_cases hn : n1 = 0
  · rw [if_pos hn]
    exact paramsPreserved_refl _
  · rw [if_neg hn]
    exact procBody_params_preserved st db
      { s with progressRow := some (progressValue idx n1 : Int) } c hov

theorem runAux_params_preserved (st : Settings) (db : DB) (n1 : Nat)
    (hov : st.overrideParas = false) :
    ∀ (cs : List Component) (idx : Nat) (s : ImpState),
      paramsPreserved s.params (runAux st db n1 idx s cs).1.params := by
  intro cs
  induction cs with
  | nil => exact fun idx s => paramsPreserved_refl _
  | cons c cs ih =>
    intro idx s
    simp only [runAux]
    cases hp : processComp st db n1 idx s c with
    | mk s1 err =>
      have h1 : paramsPreserved s.params s1.params := by
        have := processComp_params_preserved st db n1 idx s c hov
        rw [hp] at this
        exact this
      cases err with
      | some e => exact h1
      | none => exact paramsPreserved_trans h1 (ih (idx + 1) s1)

/-- Claim C9: with the IMPORT_INVENTREE_OVERRIDE_PARAS setting off, an import
run never changes a PartParameter row that existed before the run: every
pre-existing row is still found unchanged under its part and template key
afterwards, since only freshly created rows are written. -/
theorem import_no_override_preserves_params (st : Settings) (db : DB)
    (req : UploadReq) (ps : PersistentState) (p : Nat) (t : List Char)
    (r : ParamRow) (hov : st.overrideParas = false)
    (hr : findParam ps.params p t = some r) :
    findParam (import_meta_data st db req ps).2.params p t = some r := by
  simp only [import_meta_data]
  cases req.file with
  | none => exact hr
  | some file =>
    dsimp only
    by_cases hset : (st.footprintParamId.isEmpty ∨ st.referenceParamId.isEmpty ∨
        st.symbolParamId.isEmpty)
    · rw [if_pos hset]
      exact hr
    · rw [if_neg hset]
      by_cases hct : containsSub ('x' :: 'm' :: 'l' :: []) file.contentType = true
      · simp only [hct]
        rw [if_neg (by simp)]
        cases hparse : file.parsed with
        | none => exact hr
        | some comps =>
          dsimp only
          have h := runAux_params_preserved st db (comps.length - 1) hov comps 0
            { ps.toInit with progressRow := some (ps.progressRow.getD 0) }
          cases hrun : runAux st db (comps.length - 1) 0
              { ps.toInit with progressRow := some (ps.progressRow.getD 0) } comps with
          | mk s e =>
            rw [hrun] at h
            cases e with
            | some er => exact h p t r hr
            | none => exact h p t r hr
      · simp only [eq_false_of_ne_true hct]
        rw [if_pos (by simp)]
        exact hr

/-- Persistent-state fixture holding a pre-existing reference parameter row
for part 5 with data OLD. -/
def psOld : PersistentState :=
  { progressRow := none,
    params := [⟨5, "8".toList, some ("OLD".toList)⟩],
    attachments := [] }

/-- Witness for C9: after an import that touches part 5 with the override
off, the pre-existing reference row still holds OLD. -/
theorem import_no_override_preserves_params_witness :
    findParam (import_meta_data stT dbT (xmlReq [compFull, compFull6])
        psOld).2.params 5 ("8".toList)
      = some ⟨5, "8".toList, some ("OLD".toList)⟩ :=
  import_no_override_preserves_params stT dbT (xmlReq [compFull, compFull6])
    psOld 5 ("8".toList) ⟨5, "8".toList, some ("OLD".toList)⟩ rfl (by decide)

/-- Specification-side reference reformatting (from the spec sentence
"extract reference (strip trailing digits)"): remove only the trailing run
of digit characters, keeping interior digits. -/
def specStripTrailingDigits (s : List Char) : List Char :=
  (s.reverse.dropWhile Char.isDigit).reverse

/-- Counterexample to claim C8 as stated: importing a component whose ref is
U1A2 stores UA as the reference parameter — the source removes every digit
character — whereas stripping only the trailing digits would keep U1A. -/
theorem reference_digits_claim_false :
    findParam (import_meta_data stT dbT (xmlReq [compFull, compSkip])
        psEmpty).2.params 5 ("8".toList)
      = some ⟨5, "8".toList, some ("UA".toList)⟩ ∧
    specStripTrailingDigits ("U1A2".toList) = "U1A".toList ∧
    ¬ (("UA".toList : List Char) = specStripTrailingDigits ("U1A2".toList)) := by
  exact ⟨by decide, by decide, by decide⟩

theorem extractComp_ref (ident : List Char) (c : Component) (e : Extracted)
    (r0 : List Char) (hr : c.ref = some r0)
    (hex : extractComp ident c = some e) :
    e.ref = r0.filter (fun ch => ¬ ch.isDigit) := by
  simp only [extractComp, hr] at hex
  repeat' split at hex
  all_goals first
    | exact Option.noConfusion hex
    | (injection hex with h2; subst h2; rfl)

theorem upsertAll_head_fresh (tl : List (List Char)) (pid : Nat)
    (refT : List Char) (v : Option (List Char))
    (rest : List (List Char × Option (List Char))) (params : List ParamRow)
    (ht : refT ∈ tl) (hfresh : findParam params pid refT = none) :
    findParam (upsertAll false tl pid ((refT, v) :: rest) params).1 pid refT
      = some ⟨pid, refT, v⟩ := by
  have hrow : findParam (params ++ [⟨pid, refT, v⟩]) pid refT
      = some ⟨pid, refT, v⟩ := by
    unfold findParam at hfresh ⊢
    rw [find?_append_of_none _ _ _ hfresh]
    simp [List.find?]
  simp only [upsertAll, upsertOne, if_pos ht, hfresh]
  exact upsertAll_preserves false rfl tl pid rest (params ++ [⟨pid, refT, v⟩])
    pid refT _ hrow

/-- Claim C8 (amended): for an imported component with reference attribute
ref whose row reaches the parameter upsert with a freshly created reference
parameter, the stored value is ref with every digit character removed —
interior digits included — not only the trailing digits. -/
theorem reference_stored_digit_free (st : Settings) (db : DB) (n1 idx : Nat)
    (s : ImpState) (c : Component) (e : Extracted) (pid : Nat) (r0 : List Char)
    (hn : n1 ≠ 0)
    (hov : st.overrideParas = false)
    (hr : c.ref = some r0)
    (hex : extractComp st.idIdentifier c = some e)
    (hseen : ¬ e.partId ∈ s.seen)
    (hlk : partLookup st db e.partId = some pid)
    (ht : st.referenceParamId ∈ db.templates)
    (hfresh : findParam s.params pid st.referenceParamId = none) :
    findParam (processComp st db n1 idx s c).1.params pid st.referenceParamId
      = some ⟨pid, st.referenceParamId,
          some (r0.filter (fun ch => ¬ ch.isDigit))⟩ := by
  have href := extractComp_ref st.idIdentifier c e r0 hr hex
  have hhead := upsertAll_head_fresh db.templates pid st.referenceParamId
    (some e.ref)
    [(st.footprintParamId, e.footprint), (st.symbolParamId, some e.symbol)]
    s.params ht hfresh
  simp only [processComp, if_neg hn, procBody, hex]
  rw [if_neg (by simpa using hseen)]
  simp only [hlk]
  rw [hov]
  cases hup : upsertAll false db.templates pid
      [(st.referenceParamId, some e.ref),
       (st.footprintParamId, e.footprint),
       (st.symbolParamId, some e.symbol)] s.params with
  | mk ps err =>
    rw [hup] at hhead
    rw [href] at hhead
    cases err with
    | some er => exact hhead
    | none =>
      dsimp only
      cases e.datasheet with
      | none => exact hhead
      | some d =>
        dsimp only
        by_cases hde : d.isEmpty
        · rw [if_pos hde]
          exact hhead
        · rw [if_neg hde]
          by_cases had : st.addDatasheet
          · by_cases hurl : db.urlValid d
            · simp only [had, hurl]
              rw [if_neg (by simp), if_neg (by simp)]
              exact hhead
            · simp only [had, eq_false_of_ne_true hurl]
              rw [if_neg (by simp), if_pos (by simp)]
              exact hhead
          · simp only [eq_false_of_ne_true had]
            rw [if_pos (by simp)]
            exact hhead

/-- Witness for the amended C8 theorem: ref U1A2 is stored as UA. -/
theorem reference_stored_digit_free_witness :
    findParam (processComp stT dbT 1 0 psEmpty.toInit compFull).1.params
        5 ("8".toList)
      = some ⟨5, "8".toList,
          some (("U1A2".toList).filter (fun ch => ¬ ch.isDigit))⟩ :=
  reference_stored_digit_free stT dbT 1 0 psEmpty.toInit compFull
    ⟨"UA".toList, none, some ("FP".toList), "Lib:Sym".toList, "5".toList⟩
    5 ("U1A2".toList) (by decide) rfl rfl (by decide) (by decide) (by decide)
    (by decide) rfl

end KicadLib
